import Mathlib

/-!
Verification of the page-geometry and document-reconstruction core of a
PDF page replace/insert tool (nano_pdf/pdf_utils.py).

Shallow embedding choices:
- Page sizes are rationals (the code uses real arithmetic via Python
  floats; the properties at stake are the algebraic relations between
  the computed quantities, so exact arithmetic over ℚ is the model).
- A page carries its declared media-box width/height together with its
  rotation metadata. The rotation metadata is modelled by `RotAttr`:
  `numeric v` is a readable integer value, `absent` is a missing
  attribute, and `malformed` covers a non-numeric value or a read that
  fails through both access paths of `_page_rotation` (the attribute
  access and the dictionary fallback), all of which the code collapses
  to 0.
- pypdf `Transformation` objects built by chaining `scale` and
  `translate` are modelled by an explicit affine record; composing
  operations left-to-right mirrors how pypdf applies them to content.
- A composed output page (`FitResult`) records the canvas size, the
  rotation of the fresh canvas (always 0: `create_blank_page` carries no
  rotation entry), the transformation applied to the merged source
  (`none` when the code merges without calling `add_transformation`,
  i.e. native, origin-aligned placement), and the merged source page.
- The document walkers return `Option`: `none` models a raised Python
  exception (e.g. indexing page 0 of an empty document), in which case
  no output file is written, since the code writes only after the loop.
-/

namespace NanoPdf

/-- Rotation metadata of a page as read by `_page_rotation`. -/
inductive RotAttr where
  | numeric : Int → RotAttr
  | absent : RotAttr
  | malformed : RotAttr
  deriving DecidableEq, Repr

/-- A page: declared media-box width and height plus rotation metadata. -/
structure Page where
  width : ℚ
  height : ℚ
  rot : RotAttr
  deriving DecidableEq, Repr

/-- The integer value the try/except ladder of `_page_rotation` extracts
from the rotation metadata before the modulo: a readable numeric value is
kept, everything else (absent attribute, non-numeric value, failing read)
becomes 0. -/
def readRotAttr : RotAttr → Int
  | RotAttr.numeric v => v
  | RotAttr.absent => 0
  | RotAttr.malformed => 0

/-- Embeds `_page_rotation`: extract the rotation value (defaulting to 0)
and reduce it modulo 360. Lean integer `%` is Euclidean remainder, which
agrees with Python `%` for the positive modulus 360. -/
def _page_rotation (page : Page) : Int :=
  readRotAttr page.rot % 360

/-- An affine map restricted to axis-aligned scale plus translation, the
shape produced by chaining pypdf `Transformation().scale(...).translate(...)`.
It sends a point (x, y) to (sx * x + tx, sy * y + ty). -/
structure Transformation where
  sx : ℚ
  sy : ℚ
  tx : ℚ
  ty : ℚ
  deriving DecidableEq, Repr

/-- The identity transformation, `Transformation()`. -/
def Transformation.id : Transformation := ⟨1, 1, 0, 0⟩

/-- Post-compose with a uniform scale, as pypdf `.scale(s)`. -/
def Transformation.scale (t : Transformation) (s : ℚ) : Transformation :=
  ⟨t.sx * s, t.sy * s, t.tx * s, t.ty * s⟩

/-- Post-compose with a translation, as pypdf `.translate(dx, dy)`. -/
def Transformation.translate (t : Transformation) (dx dy : ℚ) : Transformation :=
  ⟨t.sx, t.sy, t.tx + dx, t.ty + dy⟩

/-- Action of a transformation on a point. -/
def Transformation.apply (t : Transformation) (x y : ℚ) : ℚ × ℚ :=
  (t.sx * x + t.tx, t.sy * y + t.ty)

/-- The page built by `_fit_page_with_padding`: a fresh blank canvas of
the stated size (rotation 0, since `create_blank_page` writes no rotation
entry) onto which `source` is merged, after the recorded transformation
when one was applied (`none` means the code merged the source directly,
at its native, origin-aligned placement). -/
structure FitResult where
  width : ℚ
  height : ℚ
  rotation : Int
  transform : Option Transformation
  source : Page
  deriving DecidableEq, Repr

/-- Embeds `_fit_page_with_padding`. Degenerate source dimensions skip
the scale computation; otherwise a uniform scale and centering offsets
are computed and applied scale-first-then-translate. -/
def _fit_page_with_padding (source_page : Page) (target_width target_height : ℚ) : FitResult :=
  let src_w := source_page.width
  let src_h := source_page.height
  if src_w ≤ 0 ∨ src_h ≤ 0 then
    { width := target_width, height := target_height, rotation := 0,
      transform := none, source := source_page }
  else
    let scale := min (target_width / src_w) (target_height / src_h)
    let scaled_w := src_w * scale
    let scaled_h := src_h * scale
    let tx := (target_width - scaled_w) / 2
    let ty := (target_height - scaled_h) / 2
    { width := target_width, height := target_height, rotation := 0,
      transform := some ((Transformation.id.scale scale).translate tx ty),
      source := source_page }

/-- Embeds `_build_replacement_page`: fit the new page into the visual
footprint of the original page, swapping the axes of the declared box
when the normalized rotation is 90 or 270. -/
def _build_replacement_page (original_page new_page : Page) : FitResult :=
  let target_w := original_page.width
  let target_h := original_page.height
  let rot := _page_rotation original_page
  let vis := if rot = 90 ∨ rot = 270 then (target_h, target_w) else (target_w, target_h)
  _fit_page_with_padding new_page vis.1 vis.2

/-- A page of an output document: either an original page passed through
unchanged or a freshly composed replacement page. -/
inductive OutPage where
  | orig : Page → OutPage
  | composed : FitResult → OutPage
  deriving DecidableEq, Repr

/-- Dictionary lookup for the `replacements` mapping of
`batch_replace_pages` (Python dict keys are unique, so association-list
lookup is a faithful model of membership plus access). -/
def dictLookup (key : Int) : List (Int × List Page) → Option (List Page)
  | [] => none
  | (k, v) :: rest => if key = k then some v else dictLookup key rest

/-- The page loop of `replace_page_in_pdf`: 0-based position `i` walks
the remaining pages; at `i = target` the first page of the new document
replaces the original (failing, as the code does, if the new document is
empty); every other page passes through. -/
def replaceLoop (new_doc : List Page) (target : Int) : List Page → Nat → Option (List OutPage)
  | [], _ => some []
  | p :: rest, i =>
    if (i : Int) = target then
      match new_doc.head? with
      | some np =>
        (replaceLoop new_doc target rest (i + 1)).map
          (fun out => OutPage.composed (_build_replacement_page p np) :: out)
      | none => none
    else
      (replaceLoop new_doc target rest (i + 1)).map (fun out => OutPage.orig p :: out)

/-- Embeds `replace_page_in_pdf`: substitute at 0-based index
`page_number - 1`, passing every other page through. -/
def replace_page_in_pdf (original new_doc : List Page) (page_number : Int) :
    Option (List OutPage) :=
  replaceLoop new_doc (page_number - 1) original 0

/-- The page loop of `batch_replace_pages`: `page_num` is the 1-based
position of the head of the remaining list; positions present in the
mapping are replaced by the first page of their own document (failing if
that document is empty), the rest pass through. -/
def batchLoop (replacements : List (Int × List Page)) : List Page → Int → Option (List OutPage)
  | [], _ => some []
  | p :: rest, page_num =>
    match dictLookup page_num replacements with
    | some new_doc =>
      match new_doc.head? with
      | some np =>
        (batchLoop replacements rest (page_num + 1)).map
          (fun out => OutPage.composed (_build_replacement_page p np) :: out)
      | none => none
    | none =>
      (batchLoop replacements rest (page_num + 1)).map (fun out => OutPage.orig p :: out)

/-- Embeds `batch_replace_pages`: walk the pages with 1-based positions
starting at 1. -/
def batch_replace_pages (original : List Page) (replacements : List (Int × List Page)) :
    Option (List OutPage) :=
  batchLoop replacements original 1

/-- The page loop of `insert_page`: every original page is copied, and
the prepared page is appended right after the page whose 1-based
position (`i + 1` for 0-based `i`) equals `after_page`. -/
def insertLoop (prepared : OutPage) (after_page : Int) : List Page → Nat → List OutPage
  | [], _ => []
  | p :: rest, i =>
    if ((i : Int) + 1) = after_page then
      OutPage.orig p :: prepared :: insertLoop prepared after_page rest (i + 1)
    else
      OutPage.orig p :: insertLoop prepared after_page rest (i + 1)

/-- Embeds `insert_page`: the first page of the original is the reference
page for sizing (indexing it fails on an empty original, as does reading
the first page of an empty new document); the prepared page is emitted
first when `after_page = 0`, and after position `after_page` otherwise. -/
def insert_page (original new_doc : List Page) (after_page : Int) : Option (List OutPage) :=
  match original.head? with
  | none => none
  | some reference_page =>
    match new_doc.head? with
    | none => none
    | some new_page =>
      let prepared := OutPage.composed (_build_replacement_page reference_page new_page)
      some ((if after_page = 0 then [prepared] else []) ++ insertLoop prepared after_page original 0)

/-- Concrete page with a numeric rotation, for witnesses. -/
def pg (w h : ℚ) (r : Int) : Page := { width := w, height := h, rot := RotAttr.numeric r }

/-- Concrete page with no rotation attribute, for witnesses. -/
def pgPlain (w h : ℚ) : Page := { width := w, height := h, rot := RotAttr.absent }

/-- A concrete five-page document with heterogeneous pages. -/
def doc5 : List Page :=
  [pgPlain 612 792, pg 612 792 90, pgPlain 595 842, pg 500 500 180, pgPlain 200 300]

/-- A concrete single-page replacement document. -/
def newDocA : List Page := [pgPlain 595 842]

/-- Another concrete single-page replacement document. -/
def newDocB : List Page := [pgPlain 100 200]

/-- The canvas returned by the compositor always has exactly the target
size and carries rotation 0, in both branches. -/
lemma fit_dims (s : Page) (W H : ℚ) :
    (_fit_page_with_padding s W H).width = W ∧
    (_fit_page_with_padding s W H).height = H ∧
    (_fit_page_with_padding s W H).rotation = 0 := by
  unfold _fit_page_with_padding
  dsimp only
  split <;> exact ⟨rfl, rfl, rfl⟩

/-- Unfolding of the resolver when the normalized rotation is 90 or 270. -/
lemma build_swap (orig np : Page)
    (h : _page_rotation orig = 90 ∨ _page_rotation orig = 270) :
    _build_replacement_page orig np = _fit_page_with_padding np orig.height orig.width := by
  unfold _build_replacement_page
  dsimp only
  rw [if_pos h]

/-- Unfolding of the resolver when the normalized rotation is neither 90
nor 270. -/
lemma build_noswap (orig np : Page)
    (h : ¬(_page_rotation orig = 90 ∨ _page_rotation orig = 270)) :
    _build_replacement_page orig np = _fit_page_with_padding np orig.width orig.height := by
  unfold _build_replacement_page
  dsimp only
  rw [if_neg h]

/-- C1: buildReplacementPage computes rot = normalizedRotation(originalPage)
and fits the replacement into the visual size of the original — the
declared box with axes swapped when rot is 90 or 270 — and the composed
page has a declared box exactly equal to that visual size and a rotation
attribute of 0, regardless of the rotation of the original. -/
theorem C1_build_replacement_visual (orig np : Page) :
    ((_page_rotation orig = 90 ∨ _page_rotation orig = 270) →
      (_build_replacement_page orig np).width = orig.height ∧
      (_build_replacement_page orig np).height = orig.width) ∧
    (¬(_page_rotation orig = 90 ∨ _page_rotation orig = 270) →
      (_build_replacement_page orig np).width = orig.width ∧
      (_build_replacement_page orig np).height = orig.height) ∧
    (_build_replacement_page orig np).rotation = 0 := by
  refine ⟨fun h => ?_, fun h => ?_, ?_⟩
  · rw [build_swap orig np h]
    exact ⟨(fit_dims _ _ _).1, (fit_dims _ _ _).2.1⟩
  · rw [build_noswap orig np h]
    exact ⟨(fit_dims _ _ _).1, (fit_dims _ _ _).2.1⟩
  · by_cases h : _page_rotation orig = 90 ∨ _page_rotation orig = 270
    · rw [build_swap orig np h]; exact (fit_dims _ _ _).2.2
    · rw [build_noswap orig np h]; exact (fit_dims _ _ _).2.2

/-- C1 witness: a 612 by 792 page rotated 90 degrees yields a composed
page of swapped box 792 by 612 with rotation 0. -/
theorem C1_witness :
    (_page_rotation (pg 612 792 90) = 90 ∨ _page_rotation (pg 612 792 90) = 270) ∧
    (_build_replacement_page (pg 612 792 90) (pgPlain 595 842)).width = (pg 612 792 90).height ∧
    (_build_replacement_page (pg 612 792 90) (pgPlain 595 842)).height = (pg 612 792 90).width ∧
    (_build_replacement_page (pg 612 792 90) (pgPlain 595 842)).rotation = 0 := by
  have h := C1_build_replacement_visual (pg 612 792 90) (pgPlain 595 842)
  have hr : _page_rotation (pg 612 792 90) = 90 ∨ _page_rotation (pg 612 792 90) = 270 := by
    left; decide
  exact ⟨hr, (h.1 hr).1, (h.1 hr).2, h.2.2⟩

/-- C2: for positive source dimensions, the compositor uses exactly
scale = min(W / w, H / h); the scaled source fits the target on both
axes with equality on at least one, and the centering offsets are
exactly half the leftover space on each axis, both nonnegative, recorded
as a scale-first-then-translate transformation. -/
theorem C2_fit_aspect (src : Page) (W H scale : ℚ) (hw : 0 < src.width) (hh : 0 < src.height)
    (hs : scale = min (W / src.width) (H / src.height)) :
    (_fit_page_with_padding src W H).transform =
      some ((Transformation.id.scale scale).translate ((W - src.width * scale) / 2)
        ((H - src.height * scale) / 2)) ∧
    scale * src.width ≤ W ∧ scale * src.height ≤ H ∧
    (scale * src.width = W ∨ scale * src.height = H) ∧
    0 ≤ (W - src.width * scale) / 2 ∧ 0 ≤ (H - src.height * scale) / 2 := by
  subst hs
  have hcond : ¬(src.width ≤ 0 ∨ src.height ≤ 0) := by push_neg; exact ⟨hw, hh⟩
  have h1 : min (W / src.width) (H / src.height) * src.width ≤ W :=
    (le_div_iff₀ hw).mp (min_le_left _ _)
  have h2 : min (W / src.width) (H / src.height) * src.height ≤ H :=
    (le_div_iff₀ hh).mp (min_le_right _ _)
  refine ⟨?_, h1, h2, ?_, ?_, ?_⟩
  · unfold _fit_page_with_padding
    dsimp only
    rw [if_neg hcond]
  · rcases min_choice (W / src.width) (H / src.height) with hmin | hmin
    · left; rw [hmin, div_mul_cancel₀ _ (ne_of_gt hw)]
    · right; rw [hmin, div_mul_cancel₀ _ (ne_of_gt hh)]
  · apply div_nonneg _ (by norm_num)
    linarith [h1, mul_comm src.width (min (W / src.width) (H / src.height))]
  · apply div_nonneg _ (by norm_num)
    linarith [h2, mul_comm src.height (min (W / src.width) (H / src.height))]

/-- C2 witness: a 100 by 200 source into a 400 by 400 target uses
scale 2, exact on the height axis, with offsets 100 and 0. -/
theorem C2_witness :
    (0 : ℚ) < (pgPlain 100 200).width ∧
    ((_fit_page_with_padding (pgPlain 100 200) 400 400).transform =
        some ((Transformation.id.scale 2).translate
          ((400 - (pgPlain 100 200).width * 2) / 2) ((400 - (pgPlain 100 200).height * 2) / 2)) ∧
      (2 : ℚ) * (pgPlain 100 200).width ≤ 400 ∧ (2 : ℚ) * (pgPlain 100 200).height ≤ 400 ∧
      ((2 : ℚ) * (pgPlain 100 200).width = 400 ∨ (2 : ℚ) * (pgPlain 100 200).height = 400) ∧
      (0 : ℚ) ≤ (400 - (pgPlain 100 200).width * 2) / 2 ∧
      (0 : ℚ) ≤ (400 - (pgPlain 100 200).height * 2) / 2) :=
  ⟨by decide,
   C2_fit_aspect (pgPlain 100 200) 400 400 2 (by decide) (by decide)
     (by norm_num [pgPlain, min_def])⟩

/-- C8: for a source page with a nonpositive declared width or height,
the compositor skips the scale computation and returns a blank canvas of
exactly the target size with the source merged onto it unscaled at its
native, origin-aligned placement (no transformation recorded), rather
than failing on a division by zero. -/
theorem C8_degenerate_fallback (src : Page) (W H : ℚ) (h : src.width ≤ 0 ∨ src.height ≤ 0) :
    _fit_page_with_padding src W H =
      { width := W, height := H, rotation := 0, transform := none, source := src } := by
  unfold _fit_page_with_padding
  rw [if_pos h]

/-- C8 witness: a source of declared width 0 placed into a 400 by 400
target yields the unscaled merge on a 400 by 400 canvas. -/
theorem C8_witness :
    ((pgPlain 0 500).width ≤ 0 ∨ (pgPlain 0 500).height ≤ 0) ∧
    _fit_page_with_padding (pgPlain 0 500) 400 400 =
      { width := 400, height := 400, rotation := 0, transform := none, source := pgPlain 0 500 } :=
  ⟨Or.inl (by decide), C8_degenerate_fallback (pgPlain 0 500) 400 400 (Or.inl (by decide))⟩

/-- C9: normalizedRotation returns the numeric rotation value reduced
modulo 360, does not restrict the result to right angles (45 stays 45),
and returns 0 when the attribute is absent or malformed; as a total Lean
function it raises nothing. -/
theorem C9_page_rotation_spec (p : Page) :
    (∀ v : Int, p.rot = RotAttr.numeric v → _page_rotation p = v % 360) ∧
    (p.rot = RotAttr.numeric 45 → _page_rotation p = 45) ∧
    (p.rot = RotAttr.absent → _page_rotation p = 0) ∧
    (p.rot = RotAttr.malformed → _page_rotation p = 0) := by
  refine ⟨fun v hv => ?_, fun hv => ?_, fun hv => ?_, fun hv => ?_⟩ <;>
    simp [_page_rotation, readRotAttr, hv]

/-- C9 witness: a stored rotation of 45 normalizes to 45, and a missing
attribute normalizes to 0. -/
theorem C9_witness :
    _page_rotation (pg 100 100 45) = 45 ∧ _page_rotation (pgPlain 100 100) = 0 := by
  have h1 := C9_page_rotation_spec (pg 100 100 45)
  have h2 := C9_page_rotation_spec (pgPlain 100 100)
  exact ⟨h1.2.1 rfl, h2.2.2.1 rfl⟩

/-- C10: the rotation normalizer is total with result in the interval
from 0 inclusive to 360 exclusive; a stored rotation of -90 normalizes
to 270 and therefore triggers the axis swap in visual sizing. -/
theorem C10_rotation_total (p np : Page) :
    0 ≤ _page_rotation p ∧ _page_rotation p < 360 ∧
    (p.rot = RotAttr.numeric (-90) →
      _page_rotation p = 270 ∧
      (_build_replacement_page p np).width = p.height ∧
      (_build_replacement_page p np).height = p.width) := by
  refine ⟨Int.emod_nonneg _ (by norm_num), Int.emod_lt_of_pos _ (by norm_num), fun hv => ?_⟩
  have hrot : _page_rotation p = 270 := by
    simp [_page_rotation, readRotAttr, hv]
  have hswap := build_swap p np (Or.inr hrot)
  rw [hswap]
  exact ⟨hrot, (fit_dims _ _ _).1, (fit_dims _ _ _).2.1⟩

/-- C10 witness: a page stored with rotation -90 normalizes to 270 and
its replacement canvas swaps the axes of the declared box. -/
theorem C10_witness :
    _page_rotation (pg 612 792 (-90)) = 270 ∧
    (_build_replacement_page (pg 612 792 (-90)) (pgPlain 595 842)).width = (pg 612 792 (-90)).height ∧
    (_build_replacement_page (pg 612 792 (-90)) (pgPlain 595 842)).height = (pg 612 792 (-90)).width := by
  have h := C10_rotation_total (pg 612 792 (-90)) (pgPlain 595 842)
  exact ⟨(h.2.2 rfl).1, (h.2.2 rfl).2.1, (h.2.2 rfl).2.2⟩

/-- When the 0-based target index lies outside the positions the loop
will visit, every page passes through unchanged and no error occurs. -/
lemma replaceLoop_skip (new_doc : List Page) (t : Int) :
    ∀ (l : List Page) (i : Nat), (t < (i : Int) ∨ (i : Int) + l.length ≤ t) →
      replaceLoop new_doc t l i = some (l.map OutPage.orig) := by
  intro l
  induction l with
  | nil => intro i _; rfl
  | cons p rest ih =>
    intro i h
    simp only [List.length_cons] at h
    have hne : ¬((i : Int) = t) := by
      rcases h with h | h
      · omega
      · push_cast at h; omega
    have h' : t < ((i + 1 : Nat) : Int) ∨ ((i + 1 : Nat) : Int) + rest.length ≤ t := by
      rcases h with h | h
      · left; push_cast; omega
      · right; push_cast at h ⊢; omega
    simp only [replaceLoop, if_neg hne]
    rw [ih (i + 1) h']
    rfl

/-- A successful replace walk preserves the number of pages. -/
lemma replaceLoop_length (new_doc : List Page) (t : Int) :
    ∀ (l : List Page) (i : Nat) (out : List OutPage),
      replaceLoop new_doc t l i = some out → out.length = l.length := by
  intro l
  induction l with
  | nil =>
    intro i out h
    simp only [replaceLoop, Option.some.injEq] at h
    subst h
    rfl
  | cons p rest ih =>
    intro i out h
    simp only [replaceLoop] at h
    split at h
    · cases hnd : new_doc.head? with
      | none => exact Option.noConfusion (by simpa only [hnd] using h)
      | some np =>
        simp only [hnd, Option.map_eq_some'] at h
        obtain ⟨out', hr, hout⟩ := h
        subst hout
        simp [ih (i + 1) out' hr]
    · rw [Option.map_eq_some'] at h
      obtain ⟨out', hr, hout⟩ := h
      subst hout
      simp [ih (i + 1) out' hr]

/-- An empty replacement mapping makes the batch walk a pure
pass-through. -/
lemma batchLoop_nil :
    ∀ (l : List Page) (k : Int), batchLoop [] l k = some (l.map OutPage.orig) := by
  intro l
  induction l with
  | nil => intro k; rfl
  | cons p rest ih =>
    intro k
    simp only [batchLoop, dictLookup]
    rw [ih (k + 1)]
    rfl

/-- A successful batch walk preserves the number of pages. -/
lemma batchLoop_length (repl : List (Int × List Page)) :
    ∀ (l : List Page) (k : Int) (out : List OutPage),
      batchLoop repl l k = some out → out.length = l.length := by
  intro l
  induction l with
  | nil =>
    intro k out h
    simp only [batchLoop, Option.some.injEq] at h
    subst h
    rfl
  | cons p rest ih =>
    intro k out h
    cases hl : dictLookup k repl with
    | none =>
      simp only [batchLoop, hl, Option.map_eq_some'] at h
      obtain ⟨out', hr, hout⟩ := h
      subst hout
      simp [ih (k + 1) out' hr]
    | some nd =>
      cases hnd : nd.head? with
      | none => exact Option.noConfusion (by simpa only [batchLoop, hl, hnd] using h)
      | some np =>
        simp only [batchLoop, hl, hnd, Option.map_eq_some'] at h
        obtain ⟨out', hr, hout⟩ := h
        subst hout
        simp [ih (k + 1) out' hr]

/-- Pointwise description of a successful batch walk: a position whose
1-based number (k + i for 0-based offset i) is not in the mapping passes
through; a position in the mapping receives the composed replacement
built from its own document. -/
lemma batchLoop_get (repl : List (Int × List Page)) :
    ∀ (l : List Page) (k : Int) (out : List OutPage), batchLoop repl l k = some out →
      ∀ i : Nat, i < l.length →
        (dictLookup (k + i) repl = none → out.get? i = (l.get? i).map OutPage.orig) ∧
        (∀ d np, dictLookup (k + i) repl = some d → d.head? = some np →
          out.get? i = (l.get? i).map (fun p => OutPage.composed (_build_replacement_page p np))) := by
  intro l
  induction l with
  | nil => intro k out _ i hi; simp at hi
  | cons p rest ih =>
    intro k out h i hi
    cases hl : dictLookup k repl with
    | none =>
      simp only [batchLoop, hl, Option.map_eq_some'] at h
      obtain ⟨out', hr, hout⟩ := h
      subst hout
      cases i with
      | zero =>
        refine ⟨fun _ => by simp, fun d np hd _ => ?_⟩
        rw [show k + ((0 : Nat) : Int) = k by simp] at hd
        rw [hl] at hd
        cases hd
      | succ j =>
        have hj : j < rest.length := by simpa using hi
        have hrec := ih (k + 1) out' hr j hj
        have harg : k + ((j + 1 : Nat) : Int) = (k + 1) + (j : Int) := by push_cast; ring
        refine ⟨fun hnone => ?_, fun d np hd hnp => ?_⟩
        · rw [harg] at hnone
          simpa using hrec.1 hnone
        · rw [harg] at hd
          simpa using hrec.2 d np hd hnp
    | some nd =>
      cases hnd : nd.head? with
      | none => exact Option.noConfusion (by simpa only [batchLoop, hl, hnd] using h)
      | some np0 =>
        simp only [batchLoop, hl, hnd, Option.map_eq_some'] at h
        obtain ⟨out', hr, hout⟩ := h
        subst hout
        cases i with
        | zero =>
          refine ⟨fun hnone => ?_, fun d np hd hnp => ?_⟩
          · rw [show k + ((0 : Nat) : Int) = k by simp] at hnone
            rw [hl] at hnone
            cases hnone
          · rw [show k + ((0 : Nat) : Int) = k by simp] at hd
            rw [hl] at hd
            injection hd with hd'
            subst hd'
            rw [hnd] at hnp
            injection hnp with hnp'
            subst hnp'
            simp
        | succ j =>
          have hj : j < rest.length := by simpa using hi
          have hrec := ih (k + 1) out' hr j hj
          have harg : k + ((j + 1 : Nat) : Int) = (k + 1) + (j : Int) := by push_cast; ring
          refine ⟨fun hnone => ?_, fun d np hd hnp => ?_⟩
          · rw [harg] at hnone
            simpa using hrec.1 hnone
          · rw [harg] at hd
            simpa using hrec.2 d np hd hnp

/-- When the anchor is at or before the current position, the insert
walk never fires and just copies the remaining pages. -/
lemma insertLoop_low (prep : OutPage) (a : Int) :
    ∀ (l : List Page) (i : Nat), a ≤ (i : Int) →
      insertLoop prep a l i = l.map OutPage.orig := by
  intro l
  induction l with
  | nil => intro i _; rfl
  | cons p rest ih =>
    intro i h
    have hne : ¬((i : Int) + 1 = a) := by omega
    simp only [insertLoop, if_neg hne]
    rw [ih (i + 1) (by push_cast; omega)]
    rfl

/-- When the anchor is beyond the last remaining position, the insert
walk never fires and just copies the remaining pages. -/
lemma insertLoop_high (prep : OutPage) (a : Int) :
    ∀ (l : List Page) (i : Nat), (i : Int) + l.length < a →
      insertLoop prep a l i = l.map OutPage.orig := by
  intro l
  induction l with
  | nil => intro i _; rfl
  | cons p rest ih =>
    intro i h
    simp only [List.length_cons] at h
    push_cast at h
    have hne : ¬((i : Int) + 1 = a) := by omega
    simp only [insertLoop, if_neg hne]
    rw [ih (i + 1) (by push_cast; omega)]
    rfl

/-- When the anchor points into the remaining pages, the insert walk
emits the prepared page exactly once, right after the anchor position,
copying everything else in order. -/
lemma insertLoop_mid (prep : OutPage) (a : Int) :
    ∀ (l : List Page) (i : Nat), (i : Int) < a → a ≤ (i : Int) + l.length →
      insertLoop prep a l i =
        (l.take (a - i).toNat).map OutPage.orig ++
          prep :: (l.drop (a - i).toNat).map OutPage.orig := by
  intro l
  induction l with
  | nil =>
    intro i h1 h2
    simp only [List.length_nil] at h2
    omega
  | cons p rest ih =>
    intro i h1 h2
    simp only [List.length_cons] at h2
    push_cast at h2
    by_cases he : (i : Int) + 1 = a
    · have ht : (a - i).toNat = 1 := by omega
      simp only [insertLoop, if_pos he, ht]
      rw [insertLoop_low prep a rest (i + 1) (by push_cast; omega)]
      rfl
    · have ht : (a - i).toNat = (a - ((i + 1 : Nat) : Int)).toNat + 1 := by push_cast; omega
      simp only [insertLoop, if_neg he, ht]
      rw [ih (i + 1) (by push_cast; omega) (by push_cast; omega)]
      simp

/-- C3 counterexample: the single-replace operation does NOT fail on an
out-of-range page number. On a concrete 5-page document, requesting page
6 succeeds and produces an output, namely all original pages passed
through unchanged. -/
theorem C3_counterexample :
    replace_page_in_pdf doc5 newDocA 6 = some (doc5.map OutPage.orig) ∧
    doc5.length = 5 := ⟨rfl, rfl⟩

/-- C3 amended: the single-replace operation performs no bounds check.
Whenever the requested 1-indexed page number is outside the interval
from 1 to the page count, it raises no error and produces an output in
which every original page passes through unchanged (no substitution
occurs). -/
theorem C3_replace_out_of_range (original new_doc : List Page) (page_number : Int)
    (h : page_number < 1 ∨ (original.length : Int) < page_number) :
    replace_page_in_pdf original new_doc page_number = some (original.map OutPage.orig) := by
  unfold replace_page_in_pdf
  apply replaceLoop_skip
  rcases h with h | h
  · left; push_cast; omega
  · right; push_cast; omega

/-- C3 witness: page number 6 on the concrete 5-page document is out of
range and the operation passes every page through. -/
theorem C3_witness :
    ((6 : Int) < 1 ∨ (doc5.length : Int) < 6) ∧
    replace_page_in_pdf doc5 newDocB 6 = some (doc5.map OutPage.orig) :=
  ⟨Or.inr (by decide), C3_replace_out_of_range doc5 newDocB 6 (Or.inr (by decide))⟩

/-- C4 counterexample: the insert operation does NOT fail on an
out-of-range anchor. On a concrete 5-page document, anchor 6 succeeds,
silently dropping the prepared page. -/
theorem C4_counterexample :
    insert_page doc5 newDocA 6 = some (doc5.map OutPage.orig) ∧
    doc5.length = 5 := ⟨rfl, rfl⟩

/-- C4 amended: the insert operation performs no bounds check on the
anchor. It does fail on an empty original document (the reference page
access), and anchor 0 on a non-empty document places the prepared page
first; but a negative anchor or an anchor exceeding the page count
raises no error and instead yields exactly the original pages, with the
prepared page silently dropped. -/
theorem C4_insert_bounds (p0 np : Page) (rest nrest new_doc : List Page) (after_page : Int) :
    insert_page [] new_doc after_page = none ∧
    ((after_page < 0 ∨ ((p0 :: rest : List Page).length : Int) < after_page) →
      insert_page (p0 :: rest) (np :: nrest) after_page = some ((p0 :: rest).map OutPage.orig)) ∧
    insert_page (p0 :: rest) (np :: nrest) 0 =
      some (OutPage.composed (_build_replacement_page p0 np) :: (p0 :: rest).map OutPage.orig) := by
  refine ⟨rfl, fun h => ?_, ?_⟩
  · have hne : ¬(after_page = 0) := by
      rcases h with h | h
      · omega
      · simp only [List.length_cons] at h; push_cast at h; omega
    simp only [insert_page, List.head?_cons]
    rw [if_neg hne]
    rcases h with h | h
    · rw [insertLoop_low _ after_page (p0 :: rest) 0 (by push_cast; omega)]
      rfl
    · simp only [List.length_cons] at h
      push_cast at h
      rw [insertLoop_high _ after_page (p0 :: rest) 0
        (by simp only [List.length_cons]; push_cast; omega)]
      rfl
  · simp only [insert_page, List.head?_cons, if_true]
    rw [insertLoop_low _ 0 (p0 :: rest) 0 (by simp)]
    rfl

/-- C4 witness: the empty original fails at anchor 0, where emptiness is
the sole cause of failure; anchor 6 on a concrete 5-page document is out
of range and passes the pages through; and anchor 0 on that document
prepends the composed page. -/
theorem C4_witness :
    insert_page [] newDocB 0 = none ∧
    insert_page ((pgPlain 612 792) ::
        [pg 612 792 90, pgPlain 595 842, pg 500 500 180, pgPlain 200 300]) newDocB 6 =
      some (((pgPlain 612 792) ::
        [pg 612 792 90, pgPlain 595 842, pg 500 500 180, pgPlain 200 300]).map OutPage.orig) ∧
    insert_page ((pgPlain 612 792) ::
        [pg 612 792 90, pgPlain 595 842, pg 500 500 180, pgPlain 200 300]) newDocB 0 =
      some (OutPage.composed (_build_replacement_page (pgPlain 612 792) (pgPlain 100 200)) ::
        ((pgPlain 612 792) ::
          [pg 612 792 90, pgPlain 595 842, pg 500 500 180, pgPlain 200 300]).map OutPage.orig) := by
  have h0 := C4_insert_bounds (pgPlain 612 792) (pgPlain 100 200)
    [pg 612 792 90, pgPlain 595 842, pg 500 500 180, pgPlain 200 300] [] newDocB 0
  have h6 := C4_insert_bounds (pgPlain 612 792) (pgPlain 100 200)
    [pg 612 792 90, pgPlain 595 842, pg 500 500 180, pgPlain 200 300] [] newDocB 6
  exact ⟨h0.1, h6.2.1 (Or.inr (by decide)), h0.2.2⟩

/-- A concrete two-page document for the count-invariant witness. -/
def wdoc : List Page := [pgPlain 100 100, pgPlain 200 300]

/-- Expected output of replacing page 1 of `wdoc` with `newDocA`. -/
def outRW : List OutPage :=
  [OutPage.composed (_build_replacement_page (pgPlain 100 100) (pgPlain 595 842)),
   OutPage.orig (pgPlain 200 300)]

/-- Expected output of a batch replace of `wdoc` with an empty mapping. -/
def outBW : List OutPage := wdoc.map OutPage.orig

/-- Expected output of inserting `newDocA` before page 1 of `wdoc`. -/
def outIW : List OutPage :=
  OutPage.composed (_build_replacement_page (pgPlain 100 100) (pgPlain 595 842)) ::
    wdoc.map OutPage.orig

/-- C5 counterexample: an insert that completes successfully with an
out-of-range anchor yields an output whose page count equals the input
count, not the input count plus one: the prepared page is dropped. -/
theorem C5_counterexample :
    insert_page doc5 newDocB 6 = some (doc5.map OutPage.orig) ∧
    (doc5.map OutPage.orig).length = doc5.length ∧ doc5.length = 5 := ⟨rfl, rfl, rfl⟩

/-- C5 amended: every successful single replace and batch replace
preserves the page count; a successful insert yields input count plus
one exactly when the anchor is 0 or lies between 1 and the page count,
and otherwise completes with the page count unchanged, silently dropping
the prepared page. -/
theorem C5_count_invariant (original new_doc : List Page) (repl : List (Int × List Page))
    (page_number after_page : Int) :
    (∀ outR, replace_page_in_pdf original new_doc page_number = some outR →
      outR.length = original.length) ∧
    (∀ outB, batch_replace_pages original repl = some outB →
      outB.length = original.length) ∧
    (∀ outI, insert_page original new_doc after_page = some outI →
      outI.length =
        (if after_page = 0 ∨ (1 ≤ after_page ∧ after_page ≤ (original.length : Int))
          then original.length + 1 else original.length)) := by
  refine ⟨fun outR hR => replaceLoop_length new_doc (page_number - 1) original 0 outR hR,
    fun outB hB => batchLoop_length repl original 1 outB hB, fun outI hI => ?_⟩
  rcases original with _ | ⟨p0, rest⟩
  · exact absurd hI (by simp [insert_page])
  rcases new_doc with _ | ⟨np, nrest⟩
  · exact absurd hI (by simp [insert_page])
  by_cases h0 : after_page = 0
  · subst h0
    simp only [insert_page, List.head?_cons, if_true] at hI
    rw [insertLoop_low _ 0 (p0 :: rest) 0 (by simp)] at hI
    injection hI with hI'
    subst hI'
    simp
  · by_cases hin : 1 ≤ after_page ∧ after_page ≤ ((p0 :: rest : List Page).length : Int)
    · simp only [insert_page, List.head?_cons] at hI
      rw [if_neg h0] at hI
      rw [insertLoop_mid _ after_page (p0 :: rest) 0 (by push_cast; omega)
        (by push_cast; omega)] at hI
      injection hI with hI'
      subst hI'
      have hcond : after_page = 0 ∨
          (1 ≤ after_page ∧ after_page ≤ (((p0 :: rest) : List Page).length : Int)) :=
        Or.inr hin
      rw [if_pos hcond]
      simp only [List.nil_append, List.length_append, List.length_map, List.length_cons,
        List.length_take, List.length_drop]
      have hle : (after_page - ((0 : Nat) : Int)).toNat ≤ (p0 :: rest : List Page).length := by
        simp only [List.length_cons] at hin ⊢
        push_cast at hin
        omega
      simp only [List.length_cons] at hle ⊢
      omega
    · have hcond : ¬(after_page = 0 ∨
          (1 ≤ after_page ∧ after_page ≤ (((p0 :: rest) : List Page).length : Int))) := by
        push_neg
        exact ⟨h0, by push_neg at hin; exact hin⟩
      rw [if_neg hcond]
      simp only [insert_page, List.head?_cons] at hI
      rw [if_neg h0] at hI
      have hout : after_page < 0 ∨ ((p0 :: rest : List Page).length : Int) < after_page := by
        rcases (not_and_or.mp hin) with hl | hr
        · left; omega
        · right; omega
      rcases hout with hout | hout
      · rw [insertLoop_low _ after_page (p0 :: rest) 0 (by push_cast; omega)] at hI
        injection hI with hI'
        subst hI'
        simp
      · rw [insertLoop_high _ after_page (p0 :: rest) 0 (by push_cast; omega)] at hI
        injection hI with hI'
        subst hI'
        simp

/-- C5 witness: on a concrete two-page document, replace at page 1,
batch replace with an empty mapping, and insert at anchor 0 all succeed,
with counts 2, 2 and 3; additionally, a replace on an empty original
with an empty replacement document at an out-of-range page number
succeeds with count 0. -/
theorem C5_witness :
    outRW.length = wdoc.length ∧ outBW.length = wdoc.length ∧
    outIW.length =
      (if (0 : Int) = 0 ∨ (1 ≤ (0 : Int) ∧ (0 : Int) ≤ (wdoc.length : Int))
        then wdoc.length + 1 else wdoc.length) ∧
    ([] : List OutPage).length = ([] : List Page).length := by
  have h := C5_count_invariant wdoc newDocA [] 1 0
  have hempty := C5_count_invariant [] [] [] 6 0
  exact ⟨h.1 outRW rfl, h.2.1 outBW rfl, h.2.2 outIW rfl, hempty.1 [] rfl⟩

/-- C6: in a successful batch replace, every position whose 1-indexed
page number is absent from the mapping is copied into the output
unchanged at its original position, every position present in the
mapping receives the composed replacement built from its own document,
the count is preserved, and an empty mapping yields a pure pass-through
of the whole document. -/
theorem C6_batch_passthrough (original : List Page) (repl : List (Int × List Page))
    (out : List OutPage) (h : batch_replace_pages original repl = some out) :
    out.length = original.length ∧
    (∀ i : Nat, i < original.length → dictLookup ((i : Int) + 1) repl = none →
      out.get? i = (original.get? i).map OutPage.orig) ∧
    (∀ i : Nat, ∀ d np, i < original.length → dictLookup ((i : Int) + 1) repl = some d →
      d.head? = some np →
      out.get? i =
        (original.get? i).map (fun p => OutPage.composed (_build_replacement_page p np))) ∧
    batch_replace_pages original [] = some (original.map OutPage.orig) := by
  refine ⟨batchLoop_length repl original 1 out h, ?_, ?_, batchLoop_nil original 1⟩
  · intro i hi hnone
    have hrec := (batchLoop_get repl original 1 out h i hi).1
    rw [show (1 : Int) + (i : Int) = (i : Int) + 1 from add_comm 1 (i : Int)] at hrec
    exact hrec hnone
  · intro i d np hi hd hnp
    have hrec := (batchLoop_get repl original 1 out h i hi).2
    rw [show (1 : Int) + (i : Int) = (i : Int) + 1 from add_comm 1 (i : Int)] at hrec
    exact hrec d np hd hnp

/-- The concrete mapping replacing pages 2 and 4 of the five-page
document. -/
def replAB : List (Int × List Page) := [(2, newDocA), (4, newDocB)]

/-- The expected batch output: originals at positions 1, 3, 5, composed
replacements at positions 2 and 4. -/
def outAB : List OutPage :=
  [OutPage.orig (pgPlain 612 792),
   OutPage.composed (_build_replacement_page (pg 612 792 90) (pgPlain 595 842)),
   OutPage.orig (pgPlain 595 842),
   OutPage.composed (_build_replacement_page (pg 500 500 180) (pgPlain 100 200)),
   OutPage.orig (pgPlain 200 300)]

/-- C6 witness: the batch replace of pages 2 and 4 of the concrete
five-page document yields exactly the expected interleaving, the
untouched positions 1, 3 and 5 pass through, and an empty mapping
passes the whole document through. -/
theorem C6_witness :
    batch_replace_pages doc5 replAB = some outAB ∧
    outAB.length = doc5.length ∧
    outAB.get? 0 = (doc5.get? 0).map OutPage.orig ∧
    outAB.get? 2 = (doc5.get? 2).map OutPage.orig ∧
    outAB.get? 4 = (doc5.get? 4).map OutPage.orig ∧
    batch_replace_pages doc5 [] = some (doc5.map OutPage.orig) := by
  have h : batch_replace_pages doc5 replAB = some outAB := rfl
  have spec := C6_batch_passthrough doc5 replAB outAB h
  exact ⟨h, spec.1, spec.2.1 0 (by decide) (by decide), spec.2.1 2 (by decide) (by decide),
    spec.2.1 4 (by decide) (by decide), spec.2.2.2⟩

/-- C7: for a non-empty original, the inserted page is always fitted
against the FIRST page of the document, whatever the anchor; anchor 0
emits the composed page before all originals, and an in-range positive
anchor emits it immediately after the page at that 1-indexed position,
with all original pages copied in order. -/
theorem C7_insert_position (p0 np : Page) (rest nrest : List Page) (after_page : Int)
    (h1 : 1 ≤ after_page) (h2 : after_page ≤ ((p0 :: rest : List Page).length : Int)) :
    insert_page (p0 :: rest) (np :: nrest) after_page =
      some (((p0 :: rest).take after_page.toNat).map OutPage.orig ++
        OutPage.composed (_build_replacement_page p0 np) ::
          ((p0 :: rest).drop after_page.toNat).map OutPage.orig) ∧
    insert_page (p0 :: rest) (np :: nrest) 0 =
      some (OutPage.composed (_build_replacement_page p0 np) :: (p0 :: rest).map OutPage.orig) := by
  constructor
  · have hne : ¬(after_page = 0) := by omega
    simp only [insert_page, List.head?_cons]
    rw [if_neg hne]
    rw [insertLoop_mid _ after_page (p0 :: rest) 0 (by push_cast; omega)
      (by simp only [List.length_cons] at h2 ⊢; push_cast at h2 ⊢; omega)]
    simp
  · simp only [insert_page, List.head?_cons, if_true]
    rw [insertLoop_low _ 0 (p0 :: rest) 0 (by simp)]
    rfl

/-- C7 witness: inserting after page 3 of the concrete five-page
document places the composed page, fitted against page 1, between the
original pages 3 and 4; anchor 0 places it first. -/
theorem C7_witness :
    (1 : Int) ≤ 3 ∧ (3 : Int) ≤ (doc5.length : Int) ∧
    (insert_page doc5 newDocA 3 =
        some ((doc5.take (3 : Int).toNat).map OutPage.orig ++
          OutPage.composed (_build_replacement_page (pgPlain 612 792) (pgPlain 595 842)) ::
            (doc5.drop (3 : Int).toNat).map OutPage.orig) ∧
      insert_page doc5 newDocA 0 =
        some (OutPage.composed (_build_replacement_page (pgPlain 612 792) (pgPlain 595 842)) ::
          doc5.map OutPage.orig)) :=
  ⟨by decide, by decide,
   C7_insert_position (pgPlain 612 792) (pgPlain 595 842)
     [pg 612 792 90, pgPlain 595 842, pg 500 500 180, pgPlain 200 300] [] 3
     (by decide) (by decide)⟩

end NanoPdf
